import Mathlib

/-!
Verification of `src/webex_bot/models/response.py` against its specification.

The file shallowly embeds the Python module: Python values that can appear in
the `Response.attributes` record are modelled by `PyVal`; the insertion-ordered
Python `dict` is modelled by an association list `List (String × PyVal)` whose
update operation (`dictSet`) overwrites in place and appends fresh keys, exactly
as a Python dict assignment does; a lookup that would raise `KeyError` returns
`Option.none`.  Setters that call `.append` on a non-list (an `AttributeError`
in Python) are modelled as `Option`-valued operations returning `Option.none`.
-/

namespace WebexBot

/-- Python values storable in the attributes record of a `Response`
(the JSON-serializable fragment that the module ever puts there). -/
inductive PyVal where
  | none : PyVal
  | bool (b : Bool) : PyVal
  | int (n : Int) : PyVal
  | str (s : String) : PyVal
  | list (xs : List PyVal) : PyVal
  | dict (kvs : List (String × PyVal)) : PyVal

mutual

/-- Decidable equality on `PyVal` (the derive handler does not support the
nested occurrences of `List`, so it is spelled out). -/
def PyVal.decEq : (a b : PyVal) → Decidable (a = b)
  | PyVal.none, PyVal.none => Decidable.isTrue rfl
  | PyVal.none, PyVal.bool _ => Decidable.isFalse (by intro h; cases h)
  | PyVal.none, PyVal.int _ => Decidable.isFalse (by intro h; cases h)
  | PyVal.none, PyVal.str _ => Decidable.isFalse (by intro h; cases h)
  | PyVal.none, PyVal.list _ => Decidable.isFalse (by intro h; cases h)
  | PyVal.none, PyVal.dict _ => Decidable.isFalse (by intro h; cases h)
  | PyVal.bool _, PyVal.none => Decidable.isFalse (by intro h; cases h)
  | PyVal.bool b1, PyVal.bool b2 =>
      if h : b1 = b2 then Decidable.isTrue (by rw [h])
      else Decidable.isFalse (by intro he; injection he with h2; exact h h2)
  | PyVal.bool _, PyVal.int _ => Decidable.isFalse (by intro h; cases h)
  | PyVal.bool _, PyVal.str _ => Decidable.isFalse (by intro h; cases h)
  | PyVal.bool _, PyVal.list _ => Decidable.isFalse (by intro h; cases h)
  | PyVal.bool _, PyVal.dict _ => Decidable.isFalse (by intro h; cases h)
  | PyVal.int _, PyVal.none => Decidable.isFalse (by intro h; cases h)
  | PyVal.int _, PyVal.bool _ => Decidable.isFalse (by intro h; cases h)
  | PyVal.int n1, PyVal.int n2 =>
      if h : n1 = n2 then Decidable.isTrue (by rw [h])
      else Decidable.isFalse (by intro he; injection he with h2; exact h h2)
  | PyVal.int _, PyVal.str _ => Decidable.isFalse (by intro h; cases h)
  | PyVal.int _, PyVal.list _ => Decidable.isFalse (by intro h; cases h)
  | PyVal.int _, PyVal.dict _ => Decidable.isFalse (by intro h; cases h)
  | PyVal.str _, PyVal.none => Decidable.isFalse (by intro h; cases h)
  | PyVal.str _, PyVal.bool _ => Decidable.isFalse (by intro h; cases h)
  | PyVal.str _, PyVal.int _ => Decidable.isFalse (by intro h; cases h)
  | PyVal.str s1, PyVal.str s2 =>
      if h : s1 = s2 then Decidable.isTrue (by rw [h])
      else Decidable.isFalse (by intro he; injection he with h2; exact h h2)
  | PyVal.str _, PyVal.list _ => Decidable.isFalse (by intro h; cases h)
  | PyVal.str _, PyVal.dict _ => Decidable.isFalse (by intro h; cases h)
  | PyVal.list _, PyVal.none => Decidable.isFalse (by intro h; cases h)
  | PyVal.list _, PyVal.bool _ => Decidable.isFalse (by intro h; cases h)
  | PyVal.list _, PyVal.int _ => Decidable.isFalse (by intro h; cases h)
  | PyVal.list _, PyVal.str _ => Decidable.isFalse (by intro h; cases h)
  | PyVal.list xs, PyVal.list ys =>
      match PyVal.decEqList xs ys with
      | Decidable.isTrue h => Decidable.isTrue (by rw [h])
      | Decidable.isFalse h =>
          Decidable.isFalse (by intro he; injection he with h2; exact h h2)
  | PyVal.list _, PyVal.dict _ => Decidable.isFalse (by intro h; cases h)
  | PyVal.dict _, PyVal.none => Decidable.isFalse (by intro h; cases h)
  | PyVal.dict _, PyVal.bool _ => Decidable.isFalse (by intro h; cases h)
  | PyVal.dict _, PyVal.int _ => Decidable.isFalse (by intro h; cases h)
  | PyVal.dict _, PyVal.str _ => Decidable.isFalse (by intro h; cases h)
  | PyVal.dict _, PyVal.list _ => Decidable.isFalse (by intro h; cases h)
  | PyVal.dict kvs1, PyVal.dict kvs2 =>
      match PyVal.decEqEntries kvs1 kvs2 with
      | Decidable.isTrue h => Decidable.isTrue (by rw [h])
      | Decidable.isFalse h =>
          Decidable.isFalse (by intro he; injection he with h2; exact h h2)

/-- Decidable equality on lists of `PyVal`. -/
def PyVal.decEqList : (xs ys : List PyVal) → Decidable (xs = ys)
  | [], [] => Decidable.isTrue rfl
  | [], _ :: _ => Decidable.isFalse (by intro h; cases h)
  | _ :: _, [] => Decidable.isFalse (by intro h; cases h)
  | x :: xs, y :: ys =>
      match PyVal.decEq x y, PyVal.decEqList xs ys with
      | Decidable.isTrue h1, Decidable.isTrue h2 => Decidable.isTrue (by rw [h1, h2])
      | Decidable.isFalse h1, _ =>
          Decidable.isFalse (by intro he; injection he with ha hb; exact h1 ha)
      | _, Decidable.isFalse h2 =>
          Decidable.isFalse (by intro he; injection he with ha hb; exact h2 hb)

/-- Decidable equality on association lists of `PyVal`. -/
def PyVal.decEqEntries : (xs ys : List (String × PyVal)) → Decidable (xs = ys)
  | [], [] => Decidable.isTrue rfl
  | [], _ :: _ => Decidable.isFalse (by intro h; cases h)
  | _ :: _, [] => Decidable.isFalse (by intro h; cases h)
  | (k1, v1) :: xs, (k2, v2) :: ys =>
      if hk : k1 = k2 then
        match PyVal.decEq v1 v2, PyVal.decEqEntries xs ys with
        | Decidable.isTrue h1, Decidable.isTrue h2 =>
            Decidable.isTrue (by rw [hk, h1, h2])
        | Decidable.isFalse h1, _ =>
            Decidable.isFalse (by
              intro he; injection he with ha hb
              exact h1 (congrArg Prod.snd ha))
        | _, Decidable.isFalse h2 =>
            Decidable.isFalse (by intro he; injection he with ha hb; exact h2 hb)
      else
        Decidable.isFalse (by
          intro he; injection he with ha hb
          exact hk (congrArg Prod.fst ha))

end

instance : DecidableEq PyVal := PyVal.decEq

/-- Python truthiness (`if v:`): `None`, `False`, `0`, the empty string, the
empty list and the empty dict are falsy; everything else is truthy. -/
def truthy : PyVal → Bool
  | PyVal.none => false
  | PyVal.bool b => b
  | PyVal.int n => n != 0
  | PyVal.str s => !s.isEmpty
  | PyVal.list xs => !xs.isEmpty
  | PyVal.dict kvs => !kvs.isEmpty

/-- Lookup in an insertion-ordered dict, `d[k]`; `Option.none` models `KeyError`. -/
def dictGet (d : List (String × PyVal)) (k : String) : Option PyVal :=
  match d with
  | [] => Option.none
  | (k1, v1) :: rest => if k1 = k then Option.some v1 else dictGet rest k

/-- Assignment in an insertion-ordered dict, `d[k] = v`: overwrites an existing
key in place, appends a fresh key at the end (Python dict semantics). -/
def dictSet (d : List (String × PyVal)) (k : String) (v : PyVal) : List (String × PyVal) :=
  match d with
  | [] => [(k, v)]
  | (k1, v1) :: rest => if k1 = k then (k, v) :: rest else (k1, v1) :: dictSet rest k v

/-- The `Response` object: a wrapper around its `attributes` record. -/
structure Response where
  attributes : List (String × PyVal)

instance : DecidableEq Response := fun r1 r2 =>
  decidable_of_iff (r1.attributes = r2.attributes) (by cases r1; cases r2; simp)

/-- The record built by `Response.__init__` when no (truthy) `attributes`
argument is given: the seven canonical keys, scalars `None`, sequences empty. -/
def defaultAttributes : List (String × PyVal) :=
  [("text", PyVal.none), ("roomId", PyVal.none), ("parentId", PyVal.none),
   ("markdown", PyVal.none), ("html", PyVal.none),
   ("files", PyVal.list []), ("attachments", PyVal.list [])]

/-- `Response.__init__(attributes=None)`: a truthy (non-`None`, non-empty)
mapping is adopted directly as the internal record; otherwise the defaults
are installed. -/
def Response.init (attrs : Option (List (String × PyVal))) : Response :=
  match attrs with
  | Option.some a => if a.isEmpty then ⟨defaultAttributes⟩ else ⟨a⟩
  | Option.none => ⟨defaultAttributes⟩

/-- Getter `Response.text`: `self.attributes["text"]`. -/
def Response.text (r : Response) : Option PyVal :=
  dictGet r.attributes "text"

/-- Setter `Response.text = val`: `self.attributes["text"] = val`. -/
def Response.setText (r : Response) (v : PyVal) : Response :=
  ⟨dictSet r.attributes "text" v⟩

/-- Getter `Response.roomId`. -/
def Response.roomId (r : Response) : Option PyVal :=
  dictGet r.attributes "roomId"

/-- Setter `Response.roomId = val`. -/
def Response.setRoomId (r : Response) (v : PyVal) : Response :=
  ⟨dictSet r.attributes "roomId" v⟩

/-- Getter `Response.parentId`. -/
def Response.parentId (r : Response) : Option PyVal :=
  dictGet r.attributes "parentId"

/-- Setter `Response.parentId = val`. -/
def Response.setParentId (r : Response) (v : PyVal) : Response :=
  ⟨dictSet r.attributes "parentId" v⟩

/-- Getter `Response.markdown`. -/
def Response.markdown (r : Response) : Option PyVal :=
  dictGet r.attributes "markdown"

/-- Setter `Response.markdown = val`. -/
def Response.setMarkdown (r : Response) (v : PyVal) : Response :=
  ⟨dictSet r.attributes "markdown" v⟩

/-- Getter `Response.html`. -/
def Response.html (r : Response) : Option PyVal :=
  dictGet r.attributes "html"

/-- Setter `Response.html = val`. -/
def Response.setHtml (r : Response) (v : PyVal) : Response :=
  ⟨dictSet r.attributes "html" v⟩

/-- Getter `Response.files`: `self.attributes["files"]`. -/
def Response.files (r : Response) : Option PyVal :=
  dictGet r.attributes "files"

/-- Setter `Response.files = val`, which the source implements as
`self.attributes["files"].append(val)`: append-only.  `Option.none` models the
`KeyError`/`AttributeError` raised when the entry is missing or not a list. -/
def Response.setFiles (r : Response) (v : PyVal) : Option Response :=
  match dictGet r.attributes "files" with
  | Option.some (PyVal.list xs) =>
      Option.some ⟨dictSet r.attributes "files" (PyVal.list (xs ++ [v]))⟩
  | _ => Option.none

/-- Getter `Response.attachments`. -/
def Response.attachments (r : Response) : Option PyVal :=
  dictGet r.attributes "attachments"

/-- Setter `Response.attachments = val`, implemented as
`self.attributes["attachments"].append(val)`: append-only, like `setFiles`. -/
def Response.setAttachments (r : Response) (v : PyVal) : Option Response :=
  match dictGet r.attributes "attachments" with
  | Option.some (PyVal.list xs) =>
      Option.some ⟨dictSet r.attributes "attachments" (PyVal.list (xs ++ [v]))⟩
  | _ => Option.none

/-- `Response.as_dict`: iterate over the attributes in order and copy each
truthy entry into a fresh dict. -/
def Response.as_dict (r : Response) : List (String × PyVal) :=
  r.attributes.foldl (fun ret kv => if truthy kv.2 then dictSet ret kv.1 kv.2 else ret) []

/-- Hexadecimal digit character (lowercase, as CPython's `json` emits). -/
def hexDigitChar (n : Nat) : Char :=
  if n < 10 then Char.ofNat (48 + n) else Char.ofNat (87 + n)

/-- Four-digit lowercase hexadecimal rendering of `n % 65536`. -/
def hex4 (n : Nat) : String :=
  String.mk [hexDigitChar (n / 4096 % 16), hexDigitChar (n / 256 % 16),
             hexDigitChar (n / 16 % 16), hexDigitChar (n % 16)]

/-- Encoding of one character inside a JSON string literal, following
CPython's `json.dumps` with its default `ensure_ascii=True`: `"` and `\`
are backslash-escaped, the named control escapes are used, every other
character outside `0x20..0x7e` becomes `\uXXXX` (a surrogate pair beyond
the basic plane). -/
def encodeChar (c : Char) : String :=
  let n := c.toNat
  if c = Char.ofNat 34 then "\\\""
  else if c = Char.ofNat 92 then "\\\\"
  else if n = 8 then "\\b"
  else if n = 9 then "\\t"
  else if n = 10 then "\\n"
  else if n = 12 then "\\f"
  else if n = 13 then "\\r"
  else if n < 32 then "\\u" ++ hex4 n
  else if n < 127 then String.mk [c]
  else if n < 65536 then "\\u" ++ hex4 n
  else
    let m := n - 65536
    "\\u" ++ hex4 (55296 + m / 1024) ++ "\\u" ++ hex4 (56320 + m % 1024)

/-- JSON rendering of a Python string literal. -/
def encodeString (s : String) : String :=
  "\"" ++ String.join (s.toList.map encodeChar) ++ "\""

mutual

/-- `json.dumps` on one value (default separators: item `", "`, key `": "`). -/
def jsonDumpsVal : PyVal → String
  | PyVal.none => "null"
  | PyVal.bool true => "true"
  | PyVal.bool false => "false"
  | PyVal.int n => toString n
  | PyVal.str s => encodeString s
  | PyVal.list xs => "[" ++ jsonDumpsElems xs ++ "]"
  | PyVal.dict kvs => "\x7b" ++ jsonDumpsEntries kvs ++ "\x7d"

/-- Comma-separated rendering of the elements of a JSON array. -/
def jsonDumpsElems : List PyVal → String
  | [] => ""
  | [x] => jsonDumpsVal x
  | x :: y :: rest => jsonDumpsVal x ++ ", " ++ jsonDumpsElems (y :: rest)

/-- Comma-separated rendering of the entries of a JSON object. -/
def jsonDumpsEntries : List (String × PyVal) → String
  | [] => ""
  | [(k, v)] => encodeString k ++ ": " ++ jsonDumpsVal v
  | (k, v) :: e :: rest =>
      encodeString k ++ ": " ++ jsonDumpsVal v ++ ", " ++ jsonDumpsEntries (e :: rest)

end

/-- `json.dumps` on an attributes record. -/
def jsonDumps (d : List (String × PyVal)) : String :=
  "\x7b" ++ jsonDumpsEntries d ++ "\x7d"

/-- The opening-brace character. -/
def lbrace : Char := Char.ofNat 123

/-- The closing-brace character. -/
def rbrace : Char := Char.ofNat 125

/-- The double-quote character. -/
def quoteChar : Char := Char.ofNat 34

/-- The backslash character. -/
def backslashChar : Char := Char.ofNat 92

/-- JSON insignificant whitespace. -/
def isJsonWs (c : Char) : Bool :=
  c = Char.ofNat 32 || c = Char.ofNat 9 || c = Char.ofNat 10 || c = Char.ofNat 13

/-- Drop leading JSON whitespace. -/
def skipJsonWs : List Char → List Char
  | [] => []
  | c :: rest => if isJsonWs c then skipJsonWs rest else c :: rest

/-- Value of one hexadecimal digit character. -/
def hexVal (c : Char) : Option Nat :=
  let n := c.toNat
  if 48 ≤ n ∧ n ≤ 57 then Option.some (n - 48)
  else if 97 ≤ n ∧ n ≤ 102 then Option.some (n - 87)
  else if 65 ≤ n ∧ n ≤ 70 then Option.some (n - 55)
  else Option.none

/-- Read four hexadecimal digits. -/
def parseHex4 : List Char → Option (Nat × List Char)
  | c1 :: c2 :: c3 :: c4 :: rest =>
      match hexVal c1, hexVal c2, hexVal c3, hexVal c4 with
      | Option.some a, Option.some b, Option.some c, Option.some d =>
          Option.some (4096 * a + 256 * b + 16 * c + d, rest)
      | _, _, _, _ => Option.none
  | _ => Option.none

/-- Read the body of a JSON string literal (after the opening quote) up to and
over the closing quote, decoding escapes, surrogate pairs included. -/
def parseStringBody : Nat → List Char → Option (List Char × List Char)
  | 0, _ => Option.none
  | _ + 1, [] => Option.none
  | fuel + 1, c :: rest =>
    if c = quoteChar then Option.some ([], rest)
    else if c = backslashChar then
      match rest with
      | [] => Option.none
      | e :: rest2 =>
        let decoded : Option (Char × List Char) :=
          if e = quoteChar then Option.some (quoteChar, rest2)
          else if e = backslashChar then Option.some (backslashChar, rest2)
          else if e = Char.ofNat 47 then Option.some (Char.ofNat 47, rest2)
          else if e = Char.ofNat 98 then Option.some (Char.ofNat 8, rest2)
          else if e = Char.ofNat 102 then Option.some (Char.ofNat 12, rest2)
          else if e = Char.ofNat 110 then Option.some (Char.ofNat 10, rest2)
          else if e = Char.ofNat 114 then Option.some (Char.ofNat 13, rest2)
          else if e = Char.ofNat 116 then Option.some (Char.ofNat 9, rest2)
          else if e = Char.ofNat 117 then
            match parseHex4 rest2 with
            | Option.some (n, rest3) =>
              if 55296 ≤ n ∧ n < 56320 then
                match rest3 with
                | b1 :: u1 :: rest4 =>
                  if b1 = backslashChar ∧ u1 = Char.ofNat 117 then
                    match parseHex4 rest4 with
                    | Option.some (m, rest5) =>
                      if 56320 ≤ m ∧ m < 57344 then
                        Option.some
                          (Char.ofNat (65536 + (n - 55296) * 1024 + (m - 56320)), rest5)
                      else Option.none
                    | Option.none => Option.none
                  else Option.none
                | _ => Option.none
              else Option.some (Char.ofNat n, rest3)
            | Option.none => Option.none
          else Option.none
        match decoded with
        | Option.some (d, r2) =>
          match parseStringBody fuel r2 with
          | Option.some (cs, r3) => Option.some (d :: cs, r3)
          | Option.none => Option.none
        | Option.none => Option.none
    else
      match parseStringBody fuel rest with
      | Option.some (cs, r2) => Option.some (c :: cs, r2)
      | Option.none => Option.none

/-- Split off a maximal run of decimal digits. -/
def takeDigits : List Char → (List Char × List Char)
  | [] => ([], [])
  | c :: rest =>
      if c.isDigit then
        let p := takeDigits rest
        (c :: p.1, p.2)
      else ([], c :: rest)

/-- Numeric value of a run of decimal digits. -/
def digitsToNat (ds : List Char) : Nat :=
  ds.foldl (fun acc c => 10 * acc + (c.toNat - 48)) 0

mutual

/-- Read one JSON value (integers only among numbers, which covers every
value `jsonDumps` can emit). -/
def parseVal : Nat → List Char → Option (PyVal × List Char)
  | 0, _ => Option.none
  | fuel + 1, s =>
    match skipJsonWs s with
    | [] => Option.none
    | c :: rest =>
      if c = quoteChar then
        match parseStringBody fuel rest with
        | Option.some (cs, r) => Option.some (PyVal.str (String.mk cs), r)
        | Option.none => Option.none
      else if c = lbrace then parseObjRest fuel rest
      else if c = Char.ofNat 91 then parseArrRest fuel rest
      else if c = Char.ofNat 110 then
        match rest with
        | c1 :: c2 :: c3 :: r =>
          if c1 = Char.ofNat 117 ∧ c2 = Char.ofNat 108 ∧ c3 = Char.ofNat 108 then
            Option.some (PyVal.none, r)
          else Option.none
        | _ => Option.none
      else if c = Char.ofNat 116 then
        match rest with
        | c1 :: c2 :: c3 :: r =>
          if c1 = Char.ofNat 114 ∧ c2 = Char.ofNat 117 ∧ c3 = Char.ofNat 101 then
            Option.some (PyVal.bool true, r)
          else Option.none
        | _ => Option.none
      else if c = Char.ofNat 102 then
        match rest with
        | c1 :: c2 :: c3 :: c4 :: r =>
          if c1 = Char.ofNat 97 ∧ c2 = Char.ofNat 108 ∧ c3 = Char.ofNat 115 ∧
              c4 = Char.ofNat 101 then
            Option.some (PyVal.bool false, r)
          else Option.none
        | _ => Option.none
      else if c = Char.ofNat 45 then
        match takeDigits rest with
        | ([], _) => Option.none
        | (ds, r) => Option.some (PyVal.int (-(digitsToNat ds : Int)), r)
      else if c.isDigit then
        match takeDigits (c :: rest) with
        | (ds, r) => Option.some (PyVal.int (digitsToNat ds : Int), r)
      else Option.none

/-- Read the rest of a JSON array, the opening bracket already consumed. -/
def parseArrRest : Nat → List Char → Option (PyVal × List Char)
  | 0, _ => Option.none
  | fuel + 1, s =>
    match skipJsonWs s with
    | c :: r =>
      if c = Char.ofNat 93 then Option.some (PyVal.list [], r)
      else
        match parseElems fuel (c :: r) with
        | Option.some (xs, r2) => Option.some (PyVal.list xs, r2)
        | Option.none => Option.none
    | [] => Option.none

/-- Read one or more comma-separated array elements up to the closing bracket. -/
def parseElems : Nat → List Char → Option (List PyVal × List Char)
  | 0, _ => Option.none
  | fuel + 1, s =>
    match parseVal fuel s with
    | Option.some (v, r) =>
      match skipJsonWs r with
      | c :: r2 =>
        if c = Char.ofNat 44 then
          match parseElems fuel r2 with
          | Option.some (xs, r3) => Option.some (v :: xs, r3)
          | Option.none => Option.none
        else if c = Char.ofNat 93 then Option.some ([v], r2)
        else Option.none
      | [] => Option.none
    | Option.none => Option.none

/-- Read the rest of a JSON object, the opening brace already consumed. -/
def parseObjRest : Nat → List Char → Option (PyVal × List Char)
  | 0, _ => Option.none
  | fuel + 1, s =>
    match skipJsonWs s with
    | c :: r =>
      if c = rbrace then Option.some (PyVal.dict [], r)
      else
        match parseEntries fuel (c :: r) with
        | Option.some (kvs, r2) => Option.some (PyVal.dict kvs, r2)
        | Option.none => Option.none
    | [] => Option.none

/-- Read one or more comma-separated object entries up to the closing brace. -/
def parseEntries : Nat → List Char → Option (List (String × PyVal) × List Char)
  | 0, _ => Option.none
  | fuel + 1, s =>
    match skipJsonWs s with
    | c :: r =>
      if c = quoteChar then
        match parseStringBody fuel r with
        | Option.some (kcs, r2) =>
          match skipJsonWs r2 with
          | c1 :: r3 =>
            if c1 = Char.ofNat 58 then
              match parseVal fuel r3 with
              | Option.some (v, r4) =>
                match skipJsonWs r4 with
                | c2 :: r5 =>
                  if c2 = Char.ofNat 44 then
                    match parseEntries fuel r5 with
                    | Option.some (kvs, r6) =>
                        Option.some ((String.mk kcs, v) :: kvs, r6)
                    | Option.none => Option.none
                  else if c2 = rbrace then Option.some ([(String.mk kcs, v)], r5)
                  else Option.none
                | [] => Option.none
              | Option.none => Option.none
            else Option.none
          | [] => Option.none
        | Option.none => Option.none
      else Option.none
    | [] => Option.none

end

/-- Parse a complete JSON document; `Option.none` models `json.loads` raising. -/
def jsonParse (s : String) : Option PyVal :=
  match parseVal (4 * s.length + 16) s.toList with
  | Option.some (v, r) =>
      if (skipJsonWs r).isEmpty then Option.some v else Option.none
  | Option.none => Option.none

/-- `Response.json`: `json.dumps(self.attributes)`, the serialization of the
complete internal record, with no filtering of null or empty values. -/
def Response.json (r : Response) : String :=
  jsonDumps r.attributes

/-- The fallback text used by `response_from_adaptive_card`. -/
def cardFallbackText : String :=
  "This bot requires a client which can render cards."

/-- `response_from_adaptive_card(adaptive_card)`.  The adaptive card is an
opaque external collaborator; it is modelled by the dictionary export
`adaptive_card.to_dict()` it contributes, passed here as `card_to_dict`. -/
def response_from_adaptive_card (card_to_dict : PyVal) : Option Response :=
  let r := Response.init Option.none
  let r := r.setText (PyVal.str cardFallbackText)
  let r := r.setMarkdown (PyVal.str cardFallbackText)
  r.setAttachments (PyVal.dict
    [("contentType", PyVal.str "application/vnd.microsoft.card.adaptive"),
     ("content", card_to_dict)])

/-- `response_custom_format(text, markdown, files=None, attachments=None)`.
The Python defaults are `None`; callers that omit an argument are modelled by
passing `PyVal.none` explicitly. -/
def response_custom_format (text markdown files attachments : PyVal) : Option Response :=
  let r := Response.init Option.none
  let r := r.setText text
  let r := r.setMarkdown markdown
  match (if truthy files then r.setFiles files else Option.some r) with
  | Option.none => Option.none
  | Option.some r1 =>
      if truthy attachments then r1.setAttachments attachments else Option.some r1

/-- One property-setter invocation on a `Response`, carrying the value
assigned (the seven setters the class defines). -/
inductive SetterCall where
  | text (v : PyVal)
  | roomId (v : PyVal)
  | parentId (v : PyVal)
  | markdown (v : PyVal)
  | html (v : PyVal)
  | files (v : PyVal)
  | attachments (v : PyVal)

/-- Run one setter; `Option.none` models the call raising. -/
def applySetter (r : Response) : SetterCall → Option Response
  | SetterCall.text v => Option.some (r.setText v)
  | SetterCall.roomId v => Option.some (r.setRoomId v)
  | SetterCall.parentId v => Option.some (r.setParentId v)
  | SetterCall.markdown v => Option.some (r.setMarkdown v)
  | SetterCall.html v => Option.some (r.setHtml v)
  | SetterCall.files v => r.setFiles v
  | SetterCall.attachments v => r.setAttachments v

/-- Run a sequence of setter calls left to right. -/
def applySetters (r : Response) : List SetterCall → Option Response
  | [] => Option.some r
  | c :: cs =>
    match applySetter r c with
    | Option.some r1 => applySetters r1 cs
    | Option.none => Option.none

/-- The seven keys of the default attributes record, in insertion order. -/
def canonicalKeys : List String :=
  ["text", "roomId", "parentId", "markdown", "html", "files", "attachments"]

/-- Shape invariant of a default-constructed `Response`: the record carries
exactly the seven canonical keys, and `files` and `attachments` hold lists. -/
def goodShape (r : Response) : Prop :=
  r.attributes.map Prod.fst = canonicalKeys ∧
  (∃ xs, dictGet r.attributes "files" = Option.some (PyVal.list xs)) ∧
  (∃ xs, dictGet r.attributes "attachments" = Option.some (PyVal.list xs))

theorem dictGet_dictSet_self (d : List (String × PyVal)) (k : String) (v : PyVal) :
    dictGet (dictSet d k v) k = Option.some v := by
  induction d with
  | nil => simp [dictSet, dictGet]
  | cons hd tl ih =>
    obtain ⟨k1, v1⟩ := hd
    by_cases h : k1 = k
    · subst h
      simp [dictSet, dictGet]
    · simp [dictSet, dictGet, h, ih]

theorem dictGet_dictSet_ne (d : List (String × PyVal)) (k k1 : String) (v : PyVal)
    (h : k1 ≠ k) : dictGet (dictSet d k v) k1 = dictGet d k1 := by
  induction d with
  | nil => simp [dictSet, dictGet, Ne.symm h]
  | cons hd tl ih =>
    obtain ⟨k2, v2⟩ := hd
    by_cases h2 : k2 = k
    · subst h2
      have hne : ¬k2 = k1 := fun he => h he.symm
      simp [dictSet, dictGet, hne]
    · simp [dictSet, dictGet, h2, ih]

theorem keys_dictSet_of_mem (d : List (String × PyVal)) (k : String) (v : PyVal)
    (h : k ∈ d.map Prod.fst) : (dictSet d k v).map Prod.fst = d.map Prod.fst := by
  induction d with
  | nil => simp at h
  | cons hd tl ih =>
    obtain ⟨k1, v1⟩ := hd
    by_cases h1 : k1 = k
    · subst h1
      simp [dictSet]
    · have hk : k ∈ tl.map Prod.fst := by
        rcases (by simpa using h) with h2 | h2
        · exact absurd h2.symm h1
        · simpa using h2
      simp [dictSet, h1, ih hk]

theorem dictSet_of_not_mem (d : List (String × PyVal)) (k : String) (v : PyVal)
    (h : k ∉ d.map Prod.fst) : dictSet d k v = d ++ [(k, v)] := by
  induction d with
  | nil => simp [dictSet]
  | cons hd tl ih =>
    obtain ⟨k1, v1⟩ := hd
    have h1 : k1 ≠ k := by
      intro he
      exact h (by simp [he])
    have h2 : k ∉ tl.map Prod.fst := by
      intro he
      exact h (by simp [he])
    simp [dictSet, h1, ih h2]

theorem dictGet_some_mem_keys (d : List (String × PyVal)) (k : String) (v : PyVal)
    (h : dictGet d k = Option.some v) : k ∈ d.map Prod.fst := by
  induction d with
  | nil => simp [dictGet] at h
  | cons hd tl ih =>
    obtain ⟨k1, v1⟩ := hd
    by_cases h1 : k1 = k
    · simp [h1]
    · rw [dictGet] at h
      simp only [h1, if_false] at h
      simp [ih h]

theorem dictGet_eq_none_of_not_mem (d : List (String × PyVal)) (k : String)
    (h : k ∉ d.map Prod.fst) : dictGet d k = Option.none := by
  induction d with
  | nil => simp [dictGet]
  | cons hd tl ih =>
    obtain ⟨k1, v1⟩ := hd
    have h1 : k1 ≠ k := by
      intro he
      exact h (by simp [he])
    have h2 : k ∉ tl.map Prod.fst := by
      intro he
      exact h (by simp [he])
    simp [dictGet, h1, ih h2]

theorem mem_unique_of_nodup_keys (d : List (String × PyVal)) (k : String) (v w : PyVal)
    (hnd : (d.map Prod.fst).Nodup) (hv : (k, v) ∈ d) (hw : (k, w) ∈ d) : v = w := by
  induction d with
  | nil => simp at hv
  | cons hd tl ih =>
    obtain ⟨k1, v1⟩ := hd
    simp only [List.map_cons, List.nodup_cons] at hnd
    rcases (show (k = k1 ∧ v = v1) ∨ (k, v) ∈ tl by simpa using hv) with h1 | h1
    · rcases (show (k = k1 ∧ w = v1) ∨ (k, w) ∈ tl by simpa using hw) with h2 | h2
      · exact h1.2.trans h2.2.symm
      · have hmem : k ∈ tl.map Prod.fst := List.mem_map_of_mem Prod.fst h2
        rw [h1.1] at hmem
        exact absurd hmem hnd.1
    · rcases (show (k = k1 ∧ w = v1) ∨ (k, w) ∈ tl by simpa using hw) with h2 | h2
      · have hmem : k ∈ tl.map Prod.fst := List.mem_map_of_mem Prod.fst h1
        rw [h2.1] at hmem
        exact absurd hmem hnd.1
      · exact ih hnd.2 h1 h2

theorem as_dict_go (d : List (String × PyVal)) :
    ∀ acc : List (String × PyVal),
      (d.map Prod.fst).Nodup →
      (∀ k, k ∈ d.map Prod.fst → k ∉ acc.map Prod.fst) →
      d.foldl (fun ret kv => if truthy kv.2 then dictSet ret kv.1 kv.2 else ret) acc =
        acc ++ d.filter (fun kv => truthy kv.2) := by
  induction d with
  | nil => intro acc _ _; simp
  | cons hd tl ih =>
    intro acc hnd hdisj
    obtain ⟨k1, v1⟩ := hd
    simp only [List.map_cons, List.nodup_cons] at hnd
    by_cases ht : truthy v1
    · have hk1 : k1 ∉ acc.map Prod.fst := hdisj k1 (by simp)
      have hstep : dictSet acc k1 v1 = acc ++ [(k1, v1)] := dictSet_of_not_mem _ _ _ hk1
      have hdisj2 : ∀ k, k ∈ tl.map Prod.fst → k ∉ (acc ++ [(k1, v1)]).map Prod.fst := by
        intro k hk
        simp only [List.map_append, List.mem_append]
        intro hor
        rcases hor with h2 | h2
        · exact hdisj k (by simp [hk]) h2
        · simp only [List.map_cons, List.map_nil, List.mem_singleton] at h2
          exact hnd.1 (h2 ▸ hk)
      calc ((k1, v1) :: tl).foldl
            (fun ret kv => if truthy kv.2 then dictSet ret kv.1 kv.2 else ret) acc
          = tl.foldl (fun ret kv => if truthy kv.2 then dictSet ret kv.1 kv.2 else ret)
              (acc ++ [(k1, v1)]) := by simp [ht, hstep]
        _ = (acc ++ [(k1, v1)]) ++ tl.filter (fun kv => truthy kv.2) :=
            ih (acc ++ [(k1, v1)]) hnd.2 hdisj2
        _ = acc ++ ((k1, v1) :: tl).filter (fun kv => truthy kv.2) := by
            simp [List.filter_cons, ht]
    · have hdisj2 : ∀ k, k ∈ tl.map Prod.fst → k ∉ acc.map Prod.fst := by
        intro k hk
        exact hdisj k (by simp [hk])
      have ht2 : truthy v1 = false := by simpa using ht
      calc ((k1, v1) :: tl).foldl
            (fun ret kv => if truthy kv.2 then dictSet ret kv.1 kv.2 else ret) acc
          = tl.foldl (fun ret kv => if truthy kv.2 then dictSet ret kv.1 kv.2 else ret)
              acc := by simp [ht2]
        _ = acc ++ tl.filter (fun kv => truthy kv.2) := ih acc hnd.2 hdisj2
        _ = acc ++ ((k1, v1) :: tl).filter (fun kv => truthy kv.2) := by
            simp [List.filter_cons, ht2]

theorem as_dict_eq_filter (r : Response) (h : (r.attributes.map Prod.fst).Nodup) :
    r.as_dict = r.attributes.filter (fun kv => truthy kv.2) := by
  unfold Response.as_dict
  rw [as_dict_go r.attributes [] h (by intro k _; simp)]
  simp

theorem goodShape_default : goodShape (Response.init Option.none) :=
  ⟨by decide, ⟨[], by decide⟩, ⟨[], by decide⟩⟩

theorem goodShape_setScalar (r : Response) (h : goodShape r) (k : String) (v : PyVal)
    (hk : k ∈ canonicalKeys) (hf : k ≠ "files") (ha : k ≠ "attachments") :
    goodShape ⟨dictSet r.attributes k v⟩ := by
  obtain ⟨hkeys, ⟨xs, hxs⟩, ⟨ys, hys⟩⟩ := h
  refine ⟨?_, ⟨xs, ?_⟩, ⟨ys, ?_⟩⟩
  · rw [keys_dictSet_of_mem _ _ _ (by rw [hkeys]; exact hk), hkeys]
  · rw [dictGet_dictSet_ne _ _ _ _ (Ne.symm hf)]
    exact hxs
  · rw [dictGet_dictSet_ne _ _ _ _ (Ne.symm ha)]
    exact hys

theorem setFiles_goodShape (r : Response) (h : goodShape r) (v : PyVal) :
    ∃ r1, r.setFiles v = Option.some r1 ∧ goodShape r1 := by
  obtain ⟨hkeys, ⟨xs, hxs⟩, ⟨ys, hys⟩⟩ := h
  refine ⟨⟨dictSet r.attributes "files" (PyVal.list (xs ++ [v]))⟩, ?_,
    ⟨?_, ⟨xs ++ [v], ?_⟩, ⟨ys, ?_⟩⟩⟩
  · unfold Response.setFiles
    rw [hxs]
  · rw [keys_dictSet_of_mem _ _ _ (by rw [hkeys]; decide), hkeys]
  · exact dictGet_dictSet_self _ _ _
  · rw [dictGet_dictSet_ne _ _ _ _ (by decide)]
    exact hys

theorem setAttachments_goodShape (r : Response) (h : goodShape r) (v : PyVal) :
    ∃ r1, r.setAttachments v = Option.some r1 ∧ goodShape r1 := by
  obtain ⟨hkeys, ⟨xs, hxs⟩, ⟨ys, hys⟩⟩ := h
  refine ⟨⟨dictSet r.attributes "attachments" (PyVal.list (ys ++ [v]))⟩, ?_,
    ⟨?_, ⟨xs, ?_⟩, ⟨ys ++ [v], ?_⟩⟩⟩
  · unfold Response.setAttachments
    rw [hys]
  · rw [keys_dictSet_of_mem _ _ _ (by rw [hkeys]; decide), hkeys]
  · rw [dictGet_dictSet_ne _ _ _ _ (by decide)]
    exact hxs
  · exact dictGet_dictSet_self _ _ _

theorem applySetter_goodShape (r : Response) (h : goodShape r) (c : SetterCall) :
    ∃ r1, applySetter r c = Option.some r1 ∧ goodShape r1 := by
  cases c with
  | text v =>
      exact ⟨_, rfl, goodShape_setScalar r h "text" v (by decide) (by decide) (by decide)⟩
  | roomId v =>
      exact ⟨_, rfl, goodShape_setScalar r h "roomId" v (by decide) (by decide) (by decide)⟩
  | parentId v =>
      exact ⟨_, rfl, goodShape_setScalar r h "parentId" v (by decide) (by decide) (by decide)⟩
  | markdown v =>
      exact ⟨_, rfl, goodShape_setScalar r h "markdown" v (by decide) (by decide) (by decide)⟩
  | html v =>
      exact ⟨_, rfl, goodShape_setScalar r h "html" v (by decide) (by decide) (by decide)⟩
  | files v => exact setFiles_goodShape r h v
  | attachments v => exact setAttachments_goodShape r h v

theorem applySetters_goodShape (calls : List SetterCall) :
    ∀ r : Response, goodShape r →
      ∃ r1, applySetters r calls = Option.some r1 ∧ goodShape r1 := by
  induction calls with
  | nil =>
      intro r h
      exact ⟨r, rfl, h⟩
  | cons c cs ih =>
      intro r h
      obtain ⟨r1, h1, h2⟩ := applySetter_goodShape r h c
      obtain ⟨r2, h3, h4⟩ := ih r1 h2
      refine ⟨r2, ?_, h4⟩
      simp only [applySetters, h1]
      exact h3

theorem as_dict_lookup_none_of_falsy (r : Response)
    (hnd : (r.attributes.map Prod.fst).Nodup) (k : String) (v : PyVal)
    (hm : (k, v) ∈ r.attributes) (hfv : truthy v = false) :
    dictGet r.as_dict k = Option.none := by
  rw [as_dict_eq_filter r hnd]
  apply dictGet_eq_none_of_not_mem
  intro hk
  rcases List.mem_map.mp hk with ⟨⟨k2, w⟩, hmem, hfst⟩
  have h2 := List.mem_filter.mp hmem
  simp only at hfst
  subst hfst
  have hw : w = v := mem_unique_of_nodup_keys r.attributes k2 w v hnd h2.1 hm
  rw [hw] at h2
  rw [hfv] at h2
  exact Bool.false_ne_true h2.2

theorem response_custom_format_eq (t m fs ats : PyVal) :
    response_custom_format t m fs ats = Option.some
      ⟨[("text", t), ("roomId", PyVal.none), ("parentId", PyVal.none),
        ("markdown", m), ("html", PyVal.none),
        ("files", PyVal.list (if truthy fs then [fs] else [])),
        ("attachments", PyVal.list (if truthy ats then [ats] else []))]⟩ := by
  unfold response_custom_format
  cases hf : truthy fs <;> cases ha : truthy ats <;>
    simp [Response.init, Response.setText, Response.setMarkdown, Response.setFiles,
      Response.setAttachments, defaultAttributes, dictSet, dictGet]

/-- Claim C1: `response_custom_format` with text `"hi"`, markdown `"**hi**"` and
files `["f1.png"]` returns a Response whose text is `"hi"`, whose markdown is
`"**hi**"`, and whose `as_dict()["files"]` equals `[["f1.png"]]`; in general a
supplied truthy files sequence is appended as a single nested element (not
flattened), and the same nesting holds for a supplied attachments sequence. -/
theorem c1_response_custom_format_nests_supplied_sequences :
    ((response_custom_format (PyVal.str "hi") (PyVal.str "**hi**")
        (PyVal.list [PyVal.str "f1.png"]) PyVal.none).map
      (fun r => (r.text, r.markdown, dictGet r.as_dict "files")) =
      Option.some (Option.some (PyVal.str "hi"), Option.some (PyVal.str "**hi**"),
        Option.some (PyVal.list [PyVal.list [PyVal.str "f1.png"]]))) ∧
    (∀ t m fs ats r, response_custom_format t m fs ats = Option.some r →
      (truthy fs = true → r.files = Option.some (PyVal.list [fs])) ∧
      (truthy ats = true → r.attachments = Option.some (PyVal.list [ats]))) := by
  constructor
  · decide
  · intro t m fs ats r h
    rw [response_custom_format_eq] at h
    injection h with h
    subst h
    constructor
    · intro hf
      simp [Response.files, dictGet, hf]
    · intro ha
      simp [Response.attachments, dictGet, ha]

/-- Claim C1 witness: the nesting clause of C1 instantiated at text `"a"`,
markdown `"b"`, files `["f"]`. -/
theorem c1_witness :
    Response.files ⟨[("text", PyVal.str "a"), ("roomId", PyVal.none),
      ("parentId", PyVal.none), ("markdown", PyVal.str "b"), ("html", PyVal.none),
      ("files", PyVal.list [PyVal.list [PyVal.str "f"]]),
      ("attachments", PyVal.list [])]⟩ =
      Option.some (PyVal.list [PyVal.list [PyVal.str "f"]]) :=
  (c1_response_custom_format_nests_supplied_sequences.2 (PyVal.str "a")
    (PyVal.str "b") (PyVal.list [PyVal.str "f"]) PyVal.none
    ⟨[("text", PyVal.str "a"), ("roomId", PyVal.none),
      ("parentId", PyVal.none), ("markdown", PyVal.str "b"), ("html", PyVal.none),
      ("files", PyVal.list [PyVal.list [PyVal.str "f"]]),
      ("attachments", PyVal.list [])]⟩ (by decide)).1 (by decide)

/-- Claim C2: for every Response (with the distinct keys every Python dict has),
`as_dict()` is exactly the truthy-filtered internal record: it contains an entry
if and only if that entry is in the internal record with a truthy value, so no
falsy-valued key ever appears and every present key maps to its record value. -/
theorem c2_as_dict_keeps_exactly_truthy_entries (r : Response)
    (hnd : (r.attributes.map Prod.fst).Nodup) :
    r.as_dict = r.attributes.filter (fun kv => truthy kv.2) ∧
    (∀ k v, (k, v) ∈ r.as_dict ↔ ((k, v) ∈ r.attributes ∧ truthy v = true)) := by
  have hf := as_dict_eq_filter r hnd
  refine ⟨hf, ?_⟩
  intro k v
  rw [hf]
  exact List.mem_filter

/-- Claim C2 witness: C2 instantiated at the default-constructed Response and
its falsy `("text", None)` entry. -/
theorem c2_witness :
    (Response.init Option.none).as_dict =
      (Response.init Option.none).attributes.filter (fun kv => truthy kv.2) ∧
    (("text", PyVal.none) ∈ (Response.init Option.none).as_dict ↔
      (("text", PyVal.none) ∈ (Response.init Option.none).attributes ∧
        truthy PyVal.none = true)) := by
  have h := c2_as_dict_keeps_exactly_truthy_entries (Response.init Option.none) (by decide)
  exact ⟨h.1, h.2 "text" PyVal.none⟩

/-- Claim C3: for every card (represented by its opaque dictionary export),
`response_from_adaptive_card` succeeds with text and markdown both the fixed
fallback string and attachments holding exactly one entry: a mapping with
contentType the adaptive-card MIME identifier and content the card's export. -/
theorem c3_response_from_adaptive_card_shape (cd : PyVal) :
    ∃ r, response_from_adaptive_card cd = Option.some r ∧
      r.text = Option.some (PyVal.str cardFallbackText) ∧
      r.markdown = Option.some (PyVal.str cardFallbackText) ∧
      r.attachments = Option.some (PyVal.list [PyVal.dict
        [("contentType", PyVal.str "application/vnd.microsoft.card.adaptive"),
         ("content", cd)]]) := by
  refine ⟨⟨[("text", PyVal.str cardFallbackText), ("roomId", PyVal.none),
    ("parentId", PyVal.none), ("markdown", PyVal.str cardFallbackText),
    ("html", PyVal.none), ("files", PyVal.list []),
    ("attachments", PyVal.list [PyVal.dict
      [("contentType", PyVal.str "application/vnd.microsoft.card.adaptive"),
       ("content", cd)]])]⟩, ?_, ?_, ?_, ?_⟩ <;> rfl

/-- Claim C4: on a default-constructed Response the files setter is append-only:
assigning `a` then `b` leaves `files == [a, b]`; likewise for attachments. -/
theorem c4_setters_append (a b : PyVal) :
    (((Response.init Option.none).setFiles a).bind (fun r => r.setFiles b)).map
        Response.files =
      Option.some (Option.some (PyVal.list [a, b])) ∧
    (((Response.init Option.none).setAttachments a).bind
        (fun r => r.setAttachments b)).map Response.attachments =
      Option.some (Option.some (PyVal.list [a, b])) := by
  constructor <;> rfl

/-- Claim C5: `json()` serializes the complete internal record: after any
sequence of setter calls on a default-constructed Response the record still
carries all seven canonical keys and `json()` is their full serialization
(null/empty values included), while `as_dict()` on the same instance omits
every falsy entry; parsing the default instance's `json()` output recovers a
mapping with all seven keys. -/
theorem c5_json_serializes_complete_record :
    (∀ (calls : List SetterCall) (r : Response),
        applySetters (Response.init Option.none) calls = Option.some r →
        r.json = jsonDumps r.attributes ∧
        r.attributes.map Prod.fst = canonicalKeys ∧
        (∀ k v, (k, v) ∈ r.attributes → truthy v = false →
          dictGet r.as_dict k = Option.none)) ∧
    jsonParse (Response.init Option.none).json =
      Option.some (PyVal.dict defaultAttributes) := by
  constructor
  · intro calls r h
    obtain ⟨r1, h1, h2⟩ :=
      applySetters_goodShape calls (Response.init Option.none) goodShape_default
    rw [h1] at h
    injection h with h
    subst h
    refine ⟨rfl, h2.1, ?_⟩
    intro k v hm hfv
    have hnd : (r1.attributes.map Prod.fst).Nodup := by
      rw [h2.1]
      decide
    exact as_dict_lookup_none_of_falsy r1 hnd k v hm hfv
  · decide

/-- Claim C5 witness: C5 instantiated at the empty setter sequence and the
falsy `("roomId", None)` entry of the default record. -/
theorem c5_witness :
    (Response.init Option.none).json = jsonDumps (Response.init Option.none).attributes ∧
    (Response.init Option.none).attributes.map Prod.fst = canonicalKeys ∧
    dictGet (Response.init Option.none).as_dict "roomId" = Option.none := by
  have h := c5_json_serializes_complete_record.1 [] (Response.init Option.none) rfl
  exact ⟨h.1, h.2.1, h.2.2 "roomId" PyVal.none (by decide) (by decide)⟩

/-- Claim C6: a Response constructed with no input has empty files and
attachments sequences and all five scalar fields null. -/
theorem c6_default_construction :
    (Response.init Option.none).text = Option.some PyVal.none ∧
    (Response.init Option.none).markdown = Option.some PyVal.none ∧
    (Response.init Option.none).html = Option.some PyVal.none ∧
    (Response.init Option.none).roomId = Option.some PyVal.none ∧
    (Response.init Option.none).parentId = Option.some PyVal.none ∧
    (Response.init Option.none).files = Option.some (PyVal.list []) ∧
    (Response.init Option.none).attachments = Option.some (PyVal.list []) := by
  decide

/-- Claim C7 counterexample: the claim quantifies over every Response and every
construction, but a Response constructed from the caller-supplied mapping
with entry `("files", None)` has a null files field, refuting "files and
attachments are never null" for arbitrary constructions. -/
theorem c7_counterexample :
    (Response.init (Option.some [("files", PyVal.none)])).files =
      Option.some PyVal.none := by
  decide

/-- Claim C7 (amended): for every Response obtained by default construction
followed by any sequence of setter calls, files and attachments are never
null: each holds a list after every operation (`as_dict` and `json` are pure
and leave the record unchanged, and every such setter sequence succeeds). -/
theorem c7_amended_lists_invariant (calls : List SetterCall) :
    ∃ r, applySetters (Response.init Option.none) calls = Option.some r ∧
      (∃ xs, r.files = Option.some (PyVal.list xs)) ∧
      (∃ xs, r.attachments = Option.some (PyVal.list xs)) := by
  obtain ⟨r, h1, h2⟩ :=
    applySetters_goodShape calls (Response.init Option.none) goodShape_default
  exact ⟨r, h1, h2.2.1, h2.2.2⟩

/-- Claim C8: a truthy caller-supplied mapping is adopted directly as the
internal record: no default keys are added and no validation is performed. -/
theorem c8_init_adopts_mapping (attrs : List (String × PyVal)) (h : attrs ≠ []) :
    (Response.init (Option.some attrs)).attributes = attrs := by
  have hne : attrs.isEmpty = false := by
    cases attrs with
    | nil => exact absurd rfl h
    | cons a l => rfl
  simp [Response.init, hne]

/-- Claim C8 witness: C8 instantiated at a one-entry mapping that carries none
of the canonical keys and a falsy value. -/
theorem c8_witness :
    (Response.init (Option.some [("x", PyVal.int 0)])).attributes =
      [("x", PyVal.int 0)] :=
  c8_init_adopts_mapping [("x", PyVal.int 0)] (by decide)

/-- Claim C9: constructing a Response from an empty mapping yields exactly the
default-constructed state: the empty mapping is falsy, so the seven canonical
keys are installed with their defaults instead of the supplied mapping. -/
theorem c9_empty_mapping_like_default :
    Response.init (Option.some []) = Response.init Option.none ∧
    (Response.init (Option.some [])).attributes = defaultAttributes := by
  constructor <;> rfl

/-- Claim C10: `response_custom_format` with an empty files sequence (and an
empty attachments sequence) skips the corresponding append-only setter, so the
result keeps `files == []` and `attachments == []` rather than `[[]]`. -/
theorem c10_empty_sequences_skip_setters (t m : PyVal) :
    (response_custom_format t m (PyVal.list []) (PyVal.list [])).map
      (fun r => (r.files, r.attachments)) =
    Option.some (Option.some (PyVal.list []), Option.some (PyVal.list [])) := by
  rfl

end WebexBot
